import Mathlib

/-
Verification of the "InteractableCoinGame" core engine
(`game/core.py`): a deterministic, headless 2D platformer step
function.  The embedding below mirrors the Python source line by line.
Real (Python float) quantities are modelled as exact rationals; the
numpy random generator, an external library whose internals are not
part of the repository, is modelled as an abstract deterministic
stream of natural-number draws (spec section 4.2: seeded, reproducible,
"pick one index from a bounded candidate set").
-/

set_option maxRecDepth 8000

namespace CoinGame

/-- Action constants, from the top of core.py. -/
def NOOP : ℕ := 0

/-- Action constant LEFT = 1. -/
def LEFT : ℕ := 1

/-- Action constant RIGHT = 2. -/
def RIGHT : ℕ := 2

/-- Action constant JUMP = 3. -/
def JUMP : ℕ := 3

/-- Game configuration (dataclass `Config`), with the source's default values. -/
structure Config where
  W : ℚ := 640
  H : ℚ := 360
  gravity : ℚ := 1500
  death_y : ℚ := 410
  dt : ℚ := 1/60
  agent_size_w : ℚ := 24
  agent_size_h : ℚ := 32
  ax_ground : ℚ := 3000
  ax_air : ℚ := 1500
  vx_max : ℚ := 250
  jump_impulse : ℚ := -500
  ground_friction : ℚ := 0.85
  timer_budget : ℚ := 10
  coins_to_win : ℕ := 10
  deriving DecidableEq

/-- The default configuration `Config()`. -/
def defaultConfig : Config := {}

/-- Agent state (dataclass `Agent`). -/
structure Agent where
  x : ℚ
  y : ℚ
  vx : ℚ
  vy : ℚ
  grounded : Bool := false
  deriving DecidableEq

/-- Coin state (dataclass `Coin`). -/
structure Coin where
  x : ℚ
  y : ℚ
  spawn_index : ℕ
  deriving DecidableEq

/-- Complete game state (dataclass `State`). -/
structure State where
  agent : Agent
  coin : Coin
  coins_collected : ℕ
  time_left : ℚ
  last_coin_spawn_index : ℕ
  deriving DecidableEq

/-- Platform rectangle (a `(x, y, width, height)` tuple in the source). -/
structure Platform where
  x : ℚ
  y : ℚ
  w : ℚ
  h : ℚ
  deriving DecidableEq

/-- Failure reasons reported in the per-step events dictionary. -/
inductive FailReason where
  | timeout
  | fall
  deriving DecidableEq

/-- Per-step event record (the `events` dictionary built by `step`). -/
structure Events where
  pickup : Bool
  win : Bool
  fail : Option FailReason
  deriving DecidableEq

/-- The fixed platform table (`_platform_tops`).  The source ignores the
configuration argument and returns six literal rectangles. -/
def platformTops (_cfg : Config) : List Platform :=
  [ ⟨0, 320, 213, 40⟩,
    ⟨213, 320, 214, 40⟩,
    ⟨427, 320, 213, 40⟩,
    ⟨200, 240, 240, 15⟩,
    ⟨0, 160, 200, 15⟩,
    ⟨440, 160, 200, 15⟩ ]

/-- Axis-aligned rectangle intersection test (`_rects_intersect`): the
decidable predicate computed by the source's boolean expression. -/
def rectsIntersect (ax ay aw ah bx bY bw bh : ℚ) : Prop :=
  ax < bx + bw ∧ ax + aw > bx ∧ ay < bY + bh ∧ ay + ah > bY

instance rectsIntersect.instDecidable (ax ay aw ah bx bY bw bh : ℚ) :
    Decidable (rectsIntersect ax ay aw ah bx bY bw bh) := by
  unfold rectsIntersect
  infer_instance

/-- Deterministic random source: an abstract model of a seeded numpy
`Generator` as a stream of natural-number draws together with a
position.  Spec section 4.2 requires only a seeded, reproducible
source of "pick one index uniformly from a bounded candidate set". -/
structure Rng where
  stream : ℕ → ℕ
  pos : ℕ

/-- Consume one raw draw from the random source. -/
def rngNext (r : Rng) : ℕ × Rng :=
  (r.stream r.pos, ⟨r.stream, r.pos + 1⟩)

/-- Model of `rng.choice(xs)` on a nonempty list of candidate indices:
the draw selects a position in the list. -/
def rngChoiceList (r : Rng) (xs : List ℕ) : ℕ × Rng :=
  let d := rngNext r
  (xs.getD (d.1 % xs.length) 0, d.2)

/-- Model of `rng.choice(n)`: a uniform pick from `range n`. -/
def rngChoiceNat (r : Rng) (n : ℕ) : ℕ × Rng :=
  let d := rngNext r
  (d.1 % n, d.2)

/-- Model of `np.random.default_rng(seed)`: a deterministic stream that
is a pure function of the seed and the call count. -/
def defaultRng (seed : ℕ) : Rng :=
  ⟨fun i => seed + i, 0⟩

/-- Coin spawn sampling (`_sample_coin_spawn`): pick an index into the
platform table different from `lastSpawn`. -/
def sampleCoinSpawn (cfg : Config) (rng : Rng) (lastSpawn : ℕ) : ℕ × Rng :=
  let available := (List.range (platformTops cfg).length).filter (fun i => i != lastSpawn)
  rngChoiceList rng available

/-- Canonical coin for a spawn index: horizontally centred on the
platform (`platform[0] + platform[2] // 2 - 8`) and 20 pixels above its
top.  Both `reset` and `step` build coins with exactly this formula. -/
def coinFor (cfg : Config) (idx : ℕ) : Coin :=
  let p := (platformTops cfg).getD idx ⟨0, 0, 0, 0⟩
  ⟨p.x + ((⌊p.w / 2⌋ : ℤ) : ℚ) - 8, p.y - 20, idx⟩

/-- Episode initialisation (`reset`). -/
def reset (cfg : Config) (seed : ℕ) : State × Rng :=
  let rng := defaultRng seed
  let agent : Agent :=
    { x := (((⌊cfg.W / 2⌋ - ⌊cfg.agent_size_w / 2⌋ : ℤ)) : ℚ),
      y := 320 - cfg.agent_size_h,
      vx := 0, vy := 0, grounded := true }
  let s := rngChoiceNat rng (platformTops cfg).length
  let st : State :=
    { agent := agent,
      coin := coinFor cfg s.1,
      coins_collected := 0,
      time_left := cfg.timer_budget,
      last_coin_spawn_index := s.1 }
  (st, s.2)

/-- Model of `np.clip(v, lo, hi)`. -/
def clip (v lo hi : ℚ) : ℚ := min hi (max lo v)

/-- Horizontal input processing: the `for action in actions` loop that
accumulates acceleration into vx and records whether any horizontal
action fired.  `grounded` is the agent's grounded flag at loop entry
(it is not modified by this loop in the source). -/
def inputAccel (cfg : Config) (grounded : Bool) (actions : List ℕ) (vx0 : ℚ) : ℚ × Bool :=
  actions.foldl
    (fun acc act =>
      if act = LEFT then
        (acc.1 - (if grounded then cfg.ax_ground else cfg.ax_air) * cfg.dt, true)
      else if act = RIGHT then
        (acc.1 + (if grounded then cfg.ax_ground else cfg.ax_air) * cfg.dt, true)
      else acc)
    (vx0, false)

/-- One iteration of the horizontal platform-collision loop: if the
agent overlaps the platform, snap along x by the sign of vx and zero
vx; otherwise leave the agent unchanged. -/
def resolveHorizOne (cfg : Config) (a : Agent) (p : Platform) : Agent :=
  if rectsIntersect a.x a.y cfg.agent_size_w cfg.agent_size_h p.x p.y p.w p.h then
    { a with x := if a.vx > 0 then p.x - cfg.agent_size_w else p.x + p.w, vx := 0 }
  else a

/-- The horizontal collision loop over an arbitrary platform list, in
table order. -/
def resolveHorizList (cfg : Config) (a : Agent) (ps : List Platform) : Agent :=
  ps.foldl (resolveHorizOne cfg) a

/-- Horizontal collision resolution against the platform table. -/
def resolveHoriz (cfg : Config) (a : Agent) : Agent :=
  resolveHorizList cfg a (platformTops cfg)

/-- One iteration of the vertical platform-collision loop. -/
def resolveVertOne (cfg : Config) (a : Agent) (p : Platform) : Agent :=
  if rectsIntersect a.x a.y cfg.agent_size_w cfg.agent_size_h p.x p.y p.w p.h then
    if a.vy > 0 then
      { a with y := p.y - cfg.agent_size_h, vy := 0, grounded := true }
    else
      { a with y := p.y + p.h, vy := 0 }
  else a

/-- The vertical collision loop over an arbitrary platform list. -/
def resolveVertList (cfg : Config) (a : Agent) (ps : List Platform) : Agent :=
  ps.foldl (resolveVertOne cfg) a

/-- Vertical collision resolution against the platform table. -/
def resolveVert (cfg : Config) (a : Agent) : Agent :=
  resolveVertList cfg a (platformTops cfg)

/-- Velocity produced by input processing, friction and the speed
clamp (steps 2 to 4 of the per-step algorithm). -/
def applyInputs (cfg : Config) (a0 : Agent) (actions : List ℕ) : ℚ :=
  let inp := inputAccel cfg a0.grounded actions a0.vx
  let vx1 := if a0.grounded && !inp.2 then inp.1 * cfg.ground_friction else inp.1
  clip vx1 (-cfg.vx_max) cfg.vx_max

/-- Arena boundary clamp (step 6): clamp x into the arena and zero vx
on contact with a wall. -/
def boundaryClamp (cfg : Config) (x1 vx : ℚ) : ℚ × ℚ :=
  if x1 < 0 then (0, 0)
  else if x1 > cfg.W - cfg.agent_size_w then (cfg.W - cfg.agent_size_w, 0)
  else (x1, vx)

/-- The whole horizontal part of a step: input acceleration, friction,
speed clamp, horizontal integration, boundary clamp, horizontal
platform collisions. -/
def horizPhase (cfg : Config) (a0 : Agent) (actions : List ℕ) : Agent :=
  let vx2 := applyInputs cfg a0 actions
  let b := boundaryClamp cfg (a0.x + vx2 * cfg.dt) vx2
  resolveHoriz cfg { a0 with x := b.1, vx := b.2 }

/-- The whole vertical part of a step: gravity, jump, grounded reset,
vertical integration, vertical platform collisions. -/
def vertPhase (cfg : Config) (aH : Agent) (actions : List ℕ) : Agent :=
  let vy1 := aH.vy + cfg.gravity * cfg.dt
  let vy2 := if aH.grounded && actions.contains JUMP then cfg.jump_impulse else vy1
  resolveVert cfg { aH with vy := vy2, grounded := false, y := aH.y + vy2 * cfg.dt }

/-- All agent movement of one step, in the source's order: input
acceleration, ground friction, speed clamp, horizontal integration,
arena boundary clamp, horizontal collisions, gravity, jump, grounded
reset, vertical integration, vertical collisions. -/
def moveAgent (cfg : Config) (a0 : Agent) (actions : List ℕ) : Agent :=
  vertPhase cfg (horizPhase cfg a0 actions) actions

/-- Fail-reason computation: timeout is checked before fall, on the
final time remaining and the final agent y. -/
def failFor (cfg : Config) (t : ℚ) (a : Agent) : Option FailReason :=
  if t ≤ 0 then some .timeout
  else if a.y ≥ cfg.death_y then some .fall
  else none

/-- One physics step (`step`).  Returns the new state, the event
record, and the advanced random source (the source advances the numpy
generator in place; the embedding threads it explicitly). -/
def stepGame (cfg : Config) (st : State) (actions : List ℕ) (rng : Rng) :
    State × Events × Rng :=
  let a := moveAgent cfg st.agent actions
  if rectsIntersect a.x a.y cfg.agent_size_w cfg.agent_size_h st.coin.x st.coin.y 16 16 then
    let s := sampleCoinSpawn cfg rng st.last_coin_spawn_index
    let coins := st.coins_collected + 1
    (⟨a, coinFor cfg s.1, coins, cfg.timer_budget, s.1⟩,
      ⟨true, decide (coins ≥ cfg.coins_to_win), failFor cfg cfg.timer_budget a⟩,
      s.2)
  else
    let t := st.time_left - cfg.dt
    (⟨a, st.coin, st.coins_collected, t, st.last_coin_spawn_index⟩,
      ⟨false, decide (st.coins_collected ≥ cfg.coins_to_win), failFor cfg t a⟩,
      rng)

/-- All runs of a driver loop: fold `stepGame` over a list of per-tick
action sets, collecting the per-step states and event records. -/
def runSteps (cfg : Config) : State → Rng → List (List ℕ) → List (State × Events)
  | _, _, [] => []
  | s, rng, acts :: rest =>
      let r := stepGame cfg s acts rng
      (r.1, r.2.1) :: runSteps cfg r.1 r.2.2 rest

/-- A full episode: `reset` followed by the given per-tick action sets. -/
def runEpisode (cfg : Config) (seed : ℕ) (actionSeq : List (List ℕ)) :
    List (State × Events) :=
  let r := reset cfg seed
  runSteps cfg r.1 r.2 actionSeq

/-- States reachable from some `reset`, closed under `stepGame` with
arbitrary action sets and arbitrary random sources (a superset of the
states of actual episodes, where the random source is threaded). -/
inductive Reachable (cfg : Config) : State → Prop where
  | init (seed : ℕ) : Reachable cfg (reset cfg seed).1
  | next (s : State) (hs : Reachable cfg s) (actions : List ℕ) (rng : Rng) :
      Reachable cfg (stepGame cfg s actions rng).1

/-- The open vertical overlap band of the floor row (platform top 320,
height 40) for the default 32-pixel-tall agent: a y in this band makes
the agent's box strictly overlap the floor row vertically. -/
def inFloorBand (y : ℚ) : Prop := 288 < y ∧ y < 360

/-- Vertical overlap band of the middle platform (top 240, height 15). -/
def inMidBand (y : ℚ) : Prop := 208 < y ∧ y < 255

/-- Vertical overlap band of the two arm platforms (top 160, height 15). -/
def inArmBand (y : ℚ) : Prop := 128 < y ∧ y < 175

/-- The inductive agent invariant for the default configuration: the x
position is inside the arena, and the agent's box does not overlap any
platform (expressed per platform row via the y bands and the
corresponding x exclusions). -/
def AgentInv (a : Agent) : Prop :=
  0 ≤ a.x ∧ a.x ≤ 616 ∧ ¬ inFloorBand a.y ∧
  (inArmBand a.y → 200 ≤ a.x ∧ a.x ≤ 416) ∧
  (inMidBand a.y → a.x ≤ 176 ∨ 440 ≤ a.x)

/-- The state invariant: the agent invariant on the state's agent. -/
def StateInv (s : State) : Prop := AgentInv s.agent

/-! ### Helper lemmas about the coin sampler and the step function -/

lemma platformTops_length (cfg : Config) : (platformTops cfg).length = 6 := rfl

lemma sampleCoinSpawn_mem (cfg : Config) (rng : Rng) (lastSpawn : ℕ) :
    (sampleCoinSpawn cfg rng lastSpawn).1 ∈
      (List.range (platformTops cfg).length).filter (fun i => i != lastSpawn) := by
  set xs := (List.range (platformTops cfg).length).filter (fun i => i != lastSpawn) with hxs
  have hne : xs ≠ [] := by
    by_cases h0 : lastSpawn = 0
    · subst h0
      rw [hxs, platformTops_length]
      decide
    · have : (0 : ℕ) ∈ xs := by
        rw [hxs]
        refine List.mem_filter.mpr ⟨?_, ?_⟩
        · rw [platformTops_length]; decide
        · simpa using fun h => h0 h.symm
      exact List.ne_nil_of_mem this
  have hpos : 0 < xs.length := List.length_pos.mpr hne
  have hlt : (rng.stream rng.pos) % xs.length < xs.length := Nat.mod_lt _ hpos
  have h1 : (sampleCoinSpawn cfg rng lastSpawn).1 =
      xs[(rng.stream rng.pos) % xs.length] := by
    show xs.getD ((rng.stream rng.pos) % xs.length) 0 = _
    rw [List.getD_eq_getElem?_getD, List.getElem?_eq_getElem hlt, Option.getD_some]
  rw [h1]
  exact List.getElem_mem hlt

lemma sampleCoinSpawn_ne (cfg : Config) (rng : Rng) (lastSpawn : ℕ) :
    (sampleCoinSpawn cfg rng lastSpawn).1 ≠ lastSpawn := by
  have h := sampleCoinSpawn_mem cfg rng lastSpawn
  have := (List.mem_filter.mp h).2
  simpa using this

lemma sampleCoinSpawn_lt (cfg : Config) (rng : Rng) (lastSpawn : ℕ) :
    (sampleCoinSpawn cfg rng lastSpawn).1 < (platformTops cfg).length := by
  have h := sampleCoinSpawn_mem cfg rng lastSpawn
  exact List.mem_range.mp (List.mem_filter.mp h).1

/-- The coin bookkeeping invariant: the current coin's spawn index
agrees with the retained last spawn index, is a valid platform-table
index, and the coin sits at the canonical spot for that index. -/
lemma coin_state_inv (cfg : Config) (s : State) (hs : Reachable cfg s) :
    s.coin.spawn_index = s.last_coin_spawn_index ∧
    s.coin.spawn_index < (platformTops cfg).length ∧
    s.coin = coinFor cfg s.coin.spawn_index := by
  induction hs with
  | init seed =>
      refine ⟨rfl, ?_, rfl⟩
      show (defaultRng seed).stream 0 % (platformTops cfg).length < (platformTops cfg).length
      exact Nat.mod_lt _ (by rw [platformTops_length]; norm_num)
  | next s hs actions rng ih =>
      unfold stepGame
      by_cases h : rectsIntersect (moveAgent cfg s.agent actions).x
          (moveAgent cfg s.agent actions).y cfg.agent_size_w cfg.agent_size_h
          s.coin.x s.coin.y 16 16
      · rw [if_pos h]
        exact ⟨rfl, sampleCoinSpawn_lt cfg rng s.last_coin_spawn_index, rfl⟩
      · rw [if_neg h]
        exact ih

/-! ### Concrete evaluation lemmas used by the witnesses -/

lemma reset_zero_eval :
    (reset defaultConfig 0).1 = ⟨⟨308, 288, 0, 0, true⟩, ⟨98, 300, 0⟩, 0, 10, 0⟩ := by
  norm_num [reset, defaultRng, rngChoiceNat, rngNext, coinFor, platformTops, defaultConfig]

lemma reset_one_eval :
    (reset defaultConfig 1).1 = ⟨⟨308, 288, 0, 0, true⟩, ⟨312, 300, 1⟩, 0, 10, 1⟩ := by
  norm_num [reset, defaultRng, rngChoiceNat, rngNext, coinFor, platformTops, defaultConfig]

lemma move_idle_eval :
    moveAgent defaultConfig ⟨308, 288, 0, 0, true⟩ [] = ⟨308, 288, 0, 0, true⟩ := by
  norm_num [moveAgent, horizPhase, vertPhase, applyInputs, boundaryClamp, inputAccel,
    clip, resolveHoriz, resolveHorizList, resolveHorizOne,
    resolveVert, resolveVertList, resolveVertOne, rectsIntersect, platformTops,
    defaultConfig, min_def, max_def]

/-! ### Machinery for the positional invariant (claim C1) -/

lemma dc_w : defaultConfig.agent_size_w = 24 := rfl

lemma dc_h : defaultConfig.agent_size_h = 32 := rfl

lemma dc_dt : defaultConfig.dt = 1/60 := rfl

lemma dc_vxmax : defaultConfig.vx_max = 250 := rfl

lemma dcW_sub : defaultConfig.W - defaultConfig.agent_size_w = 616 := by
  norm_num [defaultConfig]

lemma notRI_right {ax ay aw ah bx bY bw bh : ℚ} (h : bx + bw ≤ ax) :
    ¬ rectsIntersect ax ay aw ah bx bY bw bh :=
  fun hi => absurd hi.1 (not_lt.mpr h)

lemma notRI_left {ax ay aw ah bx bY bw bh : ℚ} (h : ax + aw ≤ bx) :
    ¬ rectsIntersect ax ay aw ah bx bY bw bh :=
  fun hi => absurd hi.2.1 (not_lt.mpr h)

lemma notRI_floorRow (y : ℚ) {x px pw : ℚ} (hy : ¬ inFloorBand y) :
    ¬ rectsIntersect x y defaultConfig.agent_size_w defaultConfig.agent_size_h px 320 pw 40 := by
  intro hi
  have h3 := hi.2.2.1
  have h4 := hi.2.2.2
  rw [dc_h] at h4
  exact hy ⟨by linarith, by linarith⟩

lemma notRI_midRow (y : ℚ) {x px pw : ℚ} (hy : ¬ inMidBand y) :
    ¬ rectsIntersect x y defaultConfig.agent_size_w defaultConfig.agent_size_h px 240 pw 15 := by
  intro hi
  have h3 := hi.2.2.1
  have h4 := hi.2.2.2
  rw [dc_h] at h4
  exact hy ⟨by linarith, by linarith⟩

lemma notRI_armRow (y : ℚ) {x px pw : ℚ} (hy : ¬ inArmBand y) :
    ¬ rectsIntersect x y defaultConfig.agent_size_w defaultConfig.agent_size_h px 160 pw 15 := by
  intro hi
  have h3 := hi.2.2.1
  have h4 := hi.2.2.2
  rw [dc_h] at h4
  exact hy ⟨by linarith, by linarith⟩

lemma rhoSkip {cfg : Config} {a : Agent} {p : Platform}
    (h : ¬ rectsIntersect a.x a.y cfg.agent_size_w cfg.agent_size_h p.x p.y p.w p.h) :
    resolveHorizOne cfg a p = a := by
  unfold resolveHorizOne
  rw [if_neg h]

lemma rhoFire {cfg : Config} {a : Agent} {p : Platform}
    (h : rectsIntersect a.x a.y cfg.agent_size_w cfg.agent_size_h p.x p.y p.w p.h) :
    resolveHorizOne cfg a p =
      { a with x := if a.vx > 0 then p.x - cfg.agent_size_w else p.x + p.w, vx := 0 } := by
  unfold resolveHorizOne
  rw [if_pos h]

lemma rvoSkip {cfg : Config} {a : Agent} {p : Platform}
    (h : ¬ rectsIntersect a.x a.y cfg.agent_size_w cfg.agent_size_h p.x p.y p.w p.h) :
    resolveVertOne cfg a p = a := by
  unfold resolveVertOne
  rw [if_neg h]

lemma rvoFirePos {cfg : Config} {a : Agent} {p : Platform}
    (h : rectsIntersect a.x a.y cfg.agent_size_w cfg.agent_size_h p.x p.y p.w p.h)
    (hv : a.vy > 0) :
    resolveVertOne cfg a p = { a with y := p.y - cfg.agent_size_h, vy := 0, grounded := true } := by
  unfold resolveVertOne
  rw [if_pos h, if_pos hv]

lemma rvoFireNeg {cfg : Config} {a : Agent} {p : Platform}
    (h : rectsIntersect a.x a.y cfg.agent_size_w cfg.agent_size_h p.x p.y p.w p.h)
    (hv : ¬ a.vy > 0) :
    resolveVertOne cfg a p = { a with y := p.y + p.h, vy := 0 } := by
  unfold resolveVertOne
  rw [if_pos h, if_neg hv]

lemma rhl_cons (cfg : Config) (a : Agent) (p : Platform) (ps : List Platform) :
    resolveHorizList cfg a (p :: ps) = resolveHorizList cfg (resolveHorizOne cfg a p) ps := rfl

lemma rvl_cons (cfg : Config) (a : Agent) (p : Platform) (ps : List Platform) :
    resolveVertList cfg a (p :: ps) = resolveVertList cfg (resolveVertOne cfg a p) ps := rfl

lemma resolveHorizList_id (cfg : Config) (a : Agent) (ps : List Platform)
    (h : ∀ p ∈ ps, ¬ rectsIntersect a.x a.y cfg.agent_size_w cfg.agent_size_h p.x p.y p.w p.h) :
    resolveHorizList cfg a ps = a := by
  induction ps with
  | nil => rfl
  | cons p ps ih =>
      rw [rhl_cons, rhoSkip (h p (List.mem_cons_self p ps))]
      exact ih fun q hq => h q (List.mem_cons_of_mem p hq)

lemma resolveVertList_id (cfg : Config) (a : Agent) (ps : List Platform)
    (h : ∀ p ∈ ps, ¬ rectsIntersect a.x a.y cfg.agent_size_w cfg.agent_size_h p.x p.y p.w p.h) :
    resolveVertList cfg a ps = a := by
  induction ps with
  | nil => rfl
  | cons p ps ih =>
      rw [rvl_cons, rvoSkip (h p (List.mem_cons_self p ps))]
      exact ih fun q hq => h q (List.mem_cons_of_mem p hq)

lemma resolveHoriz_as_list (cfg : Config) (a : Agent) :
    resolveHoriz cfg a = resolveHorizList cfg a
      [⟨0, 320, 213, 40⟩, ⟨213, 320, 214, 40⟩, ⟨427, 320, 213, 40⟩,
       ⟨200, 240, 240, 15⟩, ⟨0, 160, 200, 15⟩, ⟨440, 160, 200, 15⟩] := rfl

lemma resolveVert_as_list (cfg : Config) (a : Agent) :
    resolveVert cfg a = resolveVertList cfg a
      [⟨0, 320, 213, 40⟩, ⟨213, 320, 214, 40⟩, ⟨427, 320, 213, 40⟩,
       ⟨200, 240, 240, 15⟩, ⟨0, 160, 200, 15⟩, ⟨440, 160, 200, 15⟩] := rfl

lemma rhl_nil (cfg : Config) (a : Agent) : resolveHorizList cfg a [] = a := rfl

lemma rvl_nil (cfg : Config) (a : Agent) : resolveVertList cfg a [] = a := rfl

lemma clip_bounds (v lo hi : ℚ) (h : lo ≤ hi) :
    lo ≤ clip v lo hi ∧ clip v lo hi ≤ hi := by
  unfold clip
  exact ⟨le_min h (le_max_left lo v), min_le_left hi _⟩

lemma boundaryClamp_cases (x1 vx : ℚ) :
    (boundaryClamp defaultConfig x1 vx = (0, 0) ∧ x1 < 0) ∨
    (boundaryClamp defaultConfig x1 vx = (616, 0) ∧ 616 < x1) ∨
    (boundaryClamp defaultConfig x1 vx = (x1, vx) ∧ 0 ≤ x1 ∧ x1 ≤ 616) := by
  unfold boundaryClamp
  split_ifs with h1 h2
  · exact Or.inl ⟨rfl, h1⟩
  · refine Or.inr (Or.inl ⟨?_, ?_⟩)
    · rw [dcW_sub]
    · rw [dcW_sub] at h2
      exact h2
  · refine Or.inr (Or.inr ⟨rfl, not_lt.mp h1, ?_⟩)
    rw [dcW_sub] at h2
    exact not_lt.mp h2

lemma inMidBand_not_arm {y : ℚ} (h : inMidBand y) : ¬ inArmBand y := fun ha => by
  have h1 := h.1
  have h2 := ha.2
  linarith

lemma inMidBand_not_floor {y : ℚ} (h : inMidBand y) : ¬ inFloorBand y := fun hf => by
  have h1 := h.2
  have h2 := hf.1
  linarith

lemma inArmBand_not_mid {y : ℚ} (h : inArmBand y) : ¬ inMidBand y := fun hm => by
  have h1 := h.2
  have h2 := hm.1
  linarith

lemma inArmBand_not_floor {y : ℚ} (h : inArmBand y) : ¬ inFloorBand y := fun hf => by
  have h1 := h.2
  have h2 := hf.1
  linarith

set_option maxHeartbeats 2000000 in
/-- Horizontal collision resolution keeps x inside the arena and
leaves y untouched, given that the incoming agent does not vertically
overlap the floor row and that an agent in the arm band approaches the
arms from between them (x at least 200 when moving right, x at most
416 when not). -/
lemma resolveHoriz_ok (a : Agent)
    (hx0 : 0 ≤ a.x) (hx1 : a.x ≤ 616)
    (hfl : ¬ inFloorBand a.y)
    (harm : inArmBand a.y → (0 < a.vx → 200 < a.x) ∧ (a.vx ≤ 0 → a.x ≤ 416)) :
    0 ≤ (resolveHoriz defaultConfig a).x ∧ (resolveHoriz defaultConfig a).x ≤ 616 ∧
      (resolveHoriz defaultConfig a).y = a.y := by
  rw [resolveHoriz_as_list]
  rw [rhl_cons, rhoSkip (notRI_floorRow a.y hfl)]
  rw [rhl_cons, rhoSkip (notRI_floorRow a.y hfl)]
  rw [rhl_cons, rhoSkip (notRI_floorRow a.y hfl)]
  by_cases hm : inMidBand a.y
  · have harm2 : ¬ inArmBand a.y := inMidBand_not_arm hm
    by_cases hx : 176 < a.x ∧ a.x < 440
    · have hRI : rectsIntersect a.x a.y defaultConfig.agent_size_w defaultConfig.agent_size_h
          (200 : ℚ) 240 240 15 := by
        refine ⟨by linarith [hx.2], ?_, by linarith [hm.2], ?_⟩
        · rw [dc_w]
          linarith [hx.1]
        · rw [dc_h]
          linarith [hm.1]
      rw [rhl_cons, rhoFire hRI]
      dsimp only
      rw [show (200 : ℚ) - defaultConfig.agent_size_w = 176 from by rw [dc_w]; norm_num]
      rw [show (200 : ℚ) + 240 = 440 from by norm_num]
      rw [rhl_cons, rhoSkip (notRI_armRow a.y harm2)]
      rw [rhl_cons, rhoSkip (notRI_armRow a.y harm2)]
      rw [rhl_nil]
      refine ⟨?_, ?_, rfl⟩ <;> dsimp only <;> split_ifs <;> norm_num
    · have hxout : a.x ≤ 176 ∨ 440 ≤ a.x := by
        by_cases h1 : 176 < a.x
        · rcases not_and_or.mp hx with h | h
          · exact absurd h1 h
          · exact Or.inr (by linarith [not_lt.mp h])
        · exact Or.inl (by linarith [not_lt.mp h1])
      have hskip : ¬ rectsIntersect a.x a.y defaultConfig.agent_size_w
          defaultConfig.agent_size_h (200 : ℚ) 240 240 15 := by
        rcases hxout with h | h
        · exact notRI_left (by rw [dc_w]; linarith)
        · exact notRI_right (by linarith)
      rw [rhl_cons, rhoSkip hskip]
      rw [rhl_cons, rhoSkip (notRI_armRow a.y harm2)]
      rw [rhl_cons, rhoSkip (notRI_armRow a.y harm2)]
      rw [rhl_nil]
      exact ⟨hx0, hx1, rfl⟩
  · rw [rhl_cons, rhoSkip (notRI_midRow a.y hm)]
    by_cases ha : inArmBand a.y
    · obtain ⟨hv1, hv2⟩ := harm ha
      by_cases hvx : 0 < a.vx
      · have h200 := hv1 hvx
        rw [rhl_cons, rhoSkip (notRI_right (show (0 : ℚ) + 200 ≤ a.x by linarith))]
        by_cases hx2 : 416 < a.x
        · have hRI : rectsIntersect a.x a.y defaultConfig.agent_size_w
              defaultConfig.agent_size_h (440 : ℚ) 160 200 15 := by
            refine ⟨by linarith, ?_, by linarith [ha.2], ?_⟩
            · rw [dc_w]
              linarith
            · rw [dc_h]
              linarith [ha.1]
          rw [rhl_cons, rhoFire hRI]
          dsimp only
          rw [show (440 : ℚ) - defaultConfig.agent_size_w = 416 from by rw [dc_w]; norm_num]
          rw [rhl_nil]
          refine ⟨?_, ?_, rfl⟩ <;> dsimp only <;> rw [if_pos hvx] <;> norm_num
        · rw [rhl_cons, rhoSkip (notRI_left
            (show a.x + defaultConfig.agent_size_w ≤ 440 from by
              rw [dc_w]; linarith [not_lt.mp hx2]))]
          rw [rhl_nil]
          exact ⟨hx0, hx1, rfl⟩
      · have h416 := hv2 (not_lt.mp hvx)
        by_cases hx2 : a.x < 200
        · have hRI : rectsIntersect a.x a.y defaultConfig.agent_size_w
              defaultConfig.agent_size_h (0 : ℚ) 160 200 15 := by
            refine ⟨by linarith, ?_, by linarith [ha.2], ?_⟩
            · rw [dc_w]
              linarith
            · rw [dc_h]
              linarith [ha.1]
          rw [rhl_cons, rhoFire hRI]
          dsimp only
          rw [if_neg hvx]
          rw [show (0 : ℚ) + 200 = 200 from by norm_num]
          rw [rhl_cons, rhoSkip (notRI_left
            (show (200 : ℚ) + defaultConfig.agent_size_w ≤ 440 from by rw [dc_w]; norm_num))]
          rw [rhl_nil]
          refine ⟨?_, ?_, rfl⟩ <;> norm_num
        · rw [rhl_cons, rhoSkip (notRI_right
            (show (0 : ℚ) + 200 ≤ a.x from by linarith [not_lt.mp hx2]))]
          rw [rhl_cons, rhoSkip (notRI_left
            (show a.x + defaultConfig.agent_size_w ≤ 440 from by rw [dc_w]; linarith))]
          rw [rhl_nil]
          exact ⟨hx0, hx1, rfl⟩
    · rw [rhl_cons, rhoSkip (notRI_armRow a.y ha)]
      rw [rhl_cons, rhoSkip (notRI_armRow a.y ha)]
      rw [rhl_nil]
      exact ⟨hx0, hx1, rfl⟩

/-- After a vertical snap the agent's y is one of six constants, none
of which lies in any overlap band; the remaining platforms of the
table therefore leave the agent unchanged, and the invariant bands
hold trivially.  `ps` ranges over suffixes of the platform table. -/
lemma conclude_snapped (a : Agent) (x vx vy : ℚ) (g : Bool) (c : ℚ) (ps : List Platform)
    (hx : x = a.x)
    (hps : ∀ p ∈ ps, p.y = 320 ∧ p.h = 40 ∨ p.y = 240 ∧ p.h = 15 ∨ p.y = 160 ∧ p.h = 15)
    (h1 : ¬ inFloorBand c) (h2 : ¬ inMidBand c) (h3 : ¬ inArmBand c) :
    (resolveVertList defaultConfig ⟨x, c, vx, vy, g⟩ ps).x = a.x ∧
    ¬ inFloorBand (resolveVertList defaultConfig ⟨x, c, vx, vy, g⟩ ps).y ∧
    (inArmBand (resolveVertList defaultConfig ⟨x, c, vx, vy, g⟩ ps).y →
      200 ≤ a.x ∧ a.x ≤ 416) ∧
    (inMidBand (resolveVertList defaultConfig ⟨x, c, vx, vy, g⟩ ps).y →
      a.x ≤ 176 ∨ 440 ≤ a.x) := by
  have e : resolveVertList defaultConfig ⟨x, c, vx, vy, g⟩ ps = ⟨x, c, vx, vy, g⟩ := by
    refine resolveVertList_id _ _ _ fun p hp => ?_
    rcases hps p hp with ⟨e1, e2⟩ | ⟨e1, e2⟩ | ⟨e1, e2⟩
    · rw [e1, e2]
      exact notRI_floorRow c h1
    · rw [e1, e2]
      exact notRI_midRow c h2
    · rw [e1, e2]
      exact notRI_armRow c h3
  rw [e]
  exact ⟨hx, h1, fun hb => absurd hb h3, fun hb => absurd hb h2⟩

set_option maxHeartbeats 4000000 in
/-- Vertical collision resolution leaves x untouched and produces a y
that satisfies the band part of the agent invariant: the final box
never overlaps the floor row, and overlap of the arm or middle rows is
excluded by the corresponding x ranges. -/
lemma resolveVert_ok (a : Agent) (hx0 : 0 ≤ a.x) (hx1 : a.x ≤ 616) :
    (resolveVert defaultConfig a).x = a.x ∧
    ¬ inFloorBand (resolveVert defaultConfig a).y ∧
    (inArmBand (resolveVert defaultConfig a).y → 200 ≤ a.x ∧ a.x ≤ 416) ∧
    (inMidBand (resolveVert defaultConfig a).y → a.x ≤ 176 ∨ 440 ≤ a.x) := by
  rw [resolveVert_as_list]
  by_cases hfy : inFloorBand a.y
  · by_cases hc1 : a.x < 213
    · have hRI : rectsIntersect a.x a.y defaultConfig.agent_size_w defaultConfig.agent_size_h
          (0 : ℚ) 320 213 40 := by
        refine ⟨by linarith, ?_, by linarith [hfy.2], ?_⟩
        · rw [dc_w]
          linarith
        · rw [dc_h]
          linarith [hfy.1]
      by_cases hvy : a.vy > 0
      · rw [rvl_cons, rvoFirePos hRI hvy]
        dsimp only
        rw [show (320 : ℚ) - defaultConfig.agent_size_h = 288 from by rw [dc_h]; norm_num]
        exact conclude_snapped a a.x a.vx 0 true 288 _ rfl
          (by intro p hp; fin_cases hp <;> norm_num)
          (by norm_num [inFloorBand]) (by norm_num [inMidBand]) (by norm_num [inArmBand])
      · rw [rvl_cons, rvoFireNeg hRI hvy]
        dsimp only
        rw [show (320 : ℚ) + 40 = 360 from by norm_num]
        exact conclude_snapped a a.x a.vx 0 a.grounded 360 _ rfl
          (by intro p hp; fin_cases hp <;> norm_num)
          (by norm_num [inFloorBand]) (by norm_num [inMidBand]) (by norm_num [inArmBand])
    · rw [rvl_cons, rvoSkip (notRI_right (show (0 : ℚ) + 213 ≤ a.x from by
        linarith [not_lt.mp hc1]))]
      by_cases hc2 : a.x < 427
      · have hRI : rectsIntersect a.x a.y defaultConfig.agent_size_w defaultConfig.agent_size_h
            (213 : ℚ) 320 214 40 := by
          refine ⟨by linarith, ?_, by linarith [hfy.2], ?_⟩
          · rw [dc_w]
            linarith [not_lt.mp hc1]
          · rw [dc_h]
            linarith [hfy.1]
        by_cases hvy : a.vy > 0
        · rw [rvl_cons, rvoFirePos hRI hvy]
          dsimp only
          rw [show (320 : ℚ) - defaultConfig.agent_size_h = 288 from by rw [dc_h]; norm_num]
          exact conclude_snapped a a.x a.vx 0 true 288 _ rfl
            (by intro p hp; fin_cases hp <;> norm_num)
            (by norm_num [inFloorBand]) (by norm_num [inMidBand]) (by norm_num [inArmBand])
        · rw [rvl_cons, rvoFireNeg hRI hvy]
          dsimp only
          rw [show (320 : ℚ) + 40 = 360 from by norm_num]
          exact conclude_snapped a a.x a.vx 0 a.grounded 360 _ rfl
            (by intro p hp; fin_cases hp <;> norm_num)
            (by norm_num [inFloorBand]) (by norm_num [inMidBand]) (by norm_num [inArmBand])
      · rw [rvl_cons, rvoSkip (notRI_right (show (213 : ℚ) + 214 ≤ a.x from by
          linarith [not_lt.mp hc2]))]
        have hRI : rectsIntersect a.x a.y defaultConfig.agent_size_w defaultConfig.agent_size_h
            (427 : ℚ) 320 213 40 := by
          refine ⟨by linarith, ?_, by linarith [hfy.2], ?_⟩
          · rw [dc_w]
            linarith [not_lt.mp hc2]
          · rw [dc_h]
            linarith [hfy.1]
        by_cases hvy : a.vy > 0
        · rw [rvl_cons, rvoFirePos hRI hvy]
          dsimp only
          rw [show (320 : ℚ) - defaultConfig.agent_size_h = 288 from by rw [dc_h]; norm_num]
          exact conclude_snapped a a.x a.vx 0 true 288 _ rfl
            (by intro p hp; fin_cases hp <;> norm_num)
            (by norm_num [inFloorBand]) (by norm_num [inMidBand]) (by norm_num [inArmBand])
        · rw [rvl_cons, rvoFireNeg hRI hvy]
          dsimp only
          rw [show (320 : ℚ) + 40 = 360 from by norm_num]
          exact conclude_snapped a a.x a.vx 0 a.grounded 360 _ rfl
            (by intro p hp; fin_cases hp <;> norm_num)
            (by norm_num [inFloorBand]) (by norm_num [inMidBand]) (by norm_num [inArmBand])
  · rw [rvl_cons, rvoSkip (notRI_floorRow a.y hfy)]
    rw [rvl_cons, rvoSkip (notRI_floorRow a.y hfy)]
    rw [rvl_cons, rvoSkip (notRI_floorRow a.y hfy)]
    by_cases hmy : inMidBand a.y
    · by_cases hx : 176 < a.x ∧ a.x < 440
      · have hRI : rectsIntersect a.x a.y defaultConfig.agent_size_w defaultConfig.agent_size_h
            (200 : ℚ) 240 240 15 := by
          refine ⟨by linarith [hx.2], ?_, by linarith [hmy.2], ?_⟩
          · rw [dc_w]
            linarith [hx.1]
          · rw [dc_h]
            linarith [hmy.1]
        by_cases hvy : a.vy > 0
        · rw [rvl_cons, rvoFirePos hRI hvy]
          dsimp only
          rw [show (240 : ℚ) - defaultConfig.agent_size_h = 208 from by rw [dc_h]; norm_num]
          exact conclude_snapped a a.x a.vx 0 true 208 _ rfl
            (by intro p hp; fin_cases hp <;> norm_num)
            (by norm_num [inFloorBand]) (by norm_num [inMidBand]) (by norm_num [inArmBand])
        · rw [rvl_cons, rvoFireNeg hRI hvy]
          dsimp only
          rw [show (240 : ℚ) + 15 = 255 from by norm_num]
          exact conclude_snapped a a.x a.vx 0 a.grounded 255 _ rfl
            (by intro p hp; fin_cases hp <;> norm_num)
            (by norm_num [inFloorBand]) (by norm_num [inMidBand]) (by norm_num [inArmBand])
      · have hxout : a.x ≤ 176 ∨ 440 ≤ a.x := by
          by_cases h1 : 176 < a.x
          · rcases not_and_or.mp hx with h | h
            · exact absurd h1 h
            · exact Or.inr (by linarith [not_lt.mp h])
          · exact Or.inl (by linarith [not_lt.mp h1])
        have hskip : ¬ rectsIntersect a.x a.y defaultConfig.agent_size_w
            defaultConfig.agent_size_h (200 : ℚ) 240 240 15 := by
          rcases hxout with h | h
          · exact notRI_left (by rw [dc_w]; linarith)
          · exact notRI_right (by linarith)
        rw [rvl_cons, rvoSkip hskip]
        rw [rvl_cons, rvoSkip (notRI_armRow a.y (inMidBand_not_arm hmy))]
        rw [rvl_cons, rvoSkip (notRI_armRow a.y (inMidBand_not_arm hmy))]
        rw [rvl_nil]
        exact ⟨rfl, inMidBand_not_floor hmy, fun hb => absurd hb (inMidBand_not_arm hmy),
          fun _ => hxout⟩
    · rw [rvl_cons, rvoSkip (notRI_midRow a.y hmy)]
      by_cases hay : inArmBand a.y
      · by_cases hx : a.x < 200
        · have hRI : rectsIntersect a.x a.y defaultConfig.agent_size_w
              defaultConfig.agent_size_h (0 : ℚ) 160 200 15 := by
            refine ⟨by linarith, ?_, by linarith [hay.2], ?_⟩
            · rw [dc_w]
              linarith
            · rw [dc_h]
              linarith [hay.1]
          by_cases hvy : a.vy > 0
          · rw [rvl_cons, rvoFirePos hRI hvy]
            dsimp only
            rw [show (160 : ℚ) - defaultConfig.agent_size_h = 128 from by rw [dc_h]; norm_num]
            exact conclude_snapped a a.x a.vx 0 true 128 _ rfl
              (by intro p hp; fin_cases hp; norm_num)
              (by norm_num [inFloorBand]) (by norm_num [inMidBand]) (by norm_num [inArmBand])
          · rw [rvl_cons, rvoFireNeg hRI hvy]
            dsimp only
            rw [show (160 : ℚ) + 15 = 175 from by norm_num]
            exact conclude_snapped a a.x a.vx 0 a.grounded 175 _ rfl
              (by intro p hp; fin_cases hp; norm_num)
              (by norm_num [inFloorBand]) (by norm_num [inMidBand]) (by norm_num [inArmBand])
        · rw [rvl_cons, rvoSkip (notRI_right (show (0 : ℚ) + 200 ≤ a.x from by
            linarith [not_lt.mp hx]))]
          by_cases hx2 : 416 < a.x
          · have hRI : rectsIntersect a.x a.y defaultConfig.agent_size_w
                defaultConfig.agent_size_h (440 : ℚ) 160 200 15 := by
              refine ⟨by linarith, ?_, by linarith [hay.2], ?_⟩
              · rw [dc_w]
                linarith
              · rw [dc_h]
                linarith [hay.1]
            by_cases hvy : a.vy > 0
            · rw [rvl_cons, rvoFirePos hRI hvy]
              dsimp only
              rw [show (160 : ℚ) - defaultConfig.agent_size_h = 128 from by
                rw [dc_h]; norm_num]
              exact conclude_snapped a a.x a.vx 0 true 128 _ rfl
                (by intro p hp; exact absurd hp (List.not_mem_nil p))
                (by norm_num [inFloorBand]) (by norm_num [inMidBand])
                (by norm_num [inArmBand])
            · rw [rvl_cons, rvoFireNeg hRI hvy]
              dsimp only
              rw [show (160 : ℚ) + 15 = 175 from by norm_num]
              exact conclude_snapped a a.x a.vx 0 a.grounded 175 _ rfl
                (by intro p hp; exact absurd hp (List.not_mem_nil p))
                (by norm_num [inFloorBand]) (by norm_num [inMidBand])
                (by norm_num [inArmBand])
          · rw [rvl_cons, rvoSkip (notRI_left (show a.x + defaultConfig.agent_size_w ≤ 440
              from by rw [dc_w]; linarith [not_lt.mp hx2]))]
            rw [rvl_nil]
            exact ⟨rfl, inArmBand_not_floor hay,
              fun _ => ⟨by linarith [not_lt.mp hx], not_lt.mp hx2⟩,
              fun hb => absurd hb (inArmBand_not_mid hay)⟩
      · rw [rvl_cons, rvoSkip (notRI_armRow a.y hay)]
        rw [rvl_cons, rvoSkip (notRI_armRow a.y hay)]
        rw [rvl_nil]
        exact ⟨rfl, hfy, fun hb => absurd hb hay, fun hb => absurd hb hmy⟩

lemma applyInputs_bounds (a0 : Agent) (actions : List ℕ) :
    -defaultConfig.vx_max ≤ applyInputs defaultConfig a0 actions ∧
      applyInputs defaultConfig a0 actions ≤ defaultConfig.vx_max := by
  simp only [applyInputs]
  exact clip_bounds _ _ _ (by rw [dc_vxmax]; norm_num)

/-- The horizontal phase keeps x inside the arena and leaves y
untouched, under the band part of the agent invariant. -/
lemma horizPhase_ok (a0 : Agent) (actions : List ℕ)
    (_hx0 : 0 ≤ a0.x) (_hx1 : a0.x ≤ 616)
    (hfl : ¬ inFloorBand a0.y)
    (harm : inArmBand a0.y → 200 ≤ a0.x ∧ a0.x ≤ 416) :
    0 ≤ (horizPhase defaultConfig a0 actions).x ∧
      (horizPhase defaultConfig a0 actions).x ≤ 616 ∧
      (horizPhase defaultConfig a0 actions).y = a0.y := by
  have hv := applyInputs_bounds a0 actions
  rw [dc_vxmax] at hv
  simp only [horizPhase]
  rcases boundaryClamp_cases (a0.x + applyInputs defaultConfig a0 actions * defaultConfig.dt)
      (applyInputs defaultConfig a0 actions) with ⟨he, hc⟩ | ⟨he, hc⟩ | ⟨he, hc1, hc2⟩
  · rw [he]
    dsimp only
    exact resolveHoriz_ok ⟨0, a0.y, 0, a0.vy, a0.grounded⟩ (by norm_num) (by norm_num) hfl
      (fun _ => ⟨fun h0 => absurd h0 (by norm_num), fun _ => by norm_num⟩)
  · rw [he]
    dsimp only
    refine resolveHoriz_ok ⟨616, a0.y, 0, a0.vy, a0.grounded⟩ (by norm_num) (by norm_num) hfl
      (fun hb => ?_)
    have h2 := (harm hb).2
    rw [dc_dt] at hc
    constructor <;> intro h0 <;> dsimp only at h0 ⊢ <;> [linarith; linarith [hv.2]]
  · rw [he]
    dsimp only
    refine resolveHoriz_ok
      ⟨a0.x + applyInputs defaultConfig a0 actions * defaultConfig.dt, a0.y,
        applyInputs defaultConfig a0 actions, a0.vy, a0.grounded⟩
      hc1 hc2 hfl (fun hb => ?_)
    obtain ⟨hA, hB⟩ := harm hb
    rw [dc_dt]
    constructor <;> intro h0 <;> dsimp only at h0 ⊢ <;> linarith

/-- After vertical resolution on an agent whose x lies inside the
arena, the full agent invariant holds. -/
lemma agentInv_of_resolveVert (a : Agent) (hx0 : 0 ≤ a.x) (hx1 : a.x ≤ 616) :
    AgentInv (resolveVert defaultConfig a) := by
  obtain ⟨e, h1, h2, h3⟩ := resolveVert_ok a hx0 hx1
  refine ⟨by rw [e]; exact hx0, by rw [e]; exact hx1, h1, fun hb => ?_, fun hb => ?_⟩
  · rw [e]
    exact h2 hb
  · rw [e]
    exact h3 hb

/-- The vertical phase establishes the agent invariant from arena
bounds on x alone. -/
lemma vertPhase_ok (aH : Agent) (actions : List ℕ)
    (hx0 : 0 ≤ aH.x) (hx1 : aH.x ≤ 616) :
    AgentInv (vertPhase defaultConfig aH actions) := by
  simp only [vertPhase]
  exact agentInv_of_resolveVert _ hx0 hx1

/-- One whole movement step preserves the agent invariant. -/
lemma moveAgent_inv (a0 : Agent) (actions : List ℕ) (h : AgentInv a0) :
    AgentInv (moveAgent defaultConfig a0 actions) := by
  obtain ⟨hx0, hx1, hfl, harm, hmid⟩ := h
  have hh := horizPhase_ok a0 actions hx0 hx1 hfl harm
  unfold moveAgent
  exact vertPhase_ok _ actions hh.1 hh.2.1

lemma stepGame_inv (s : State) (actions : List ℕ) (rng : Rng) (h : StateInv s) :
    StateInv (stepGame defaultConfig s actions rng).1 := by
  unfold stepGame
  by_cases hc : rectsIntersect (moveAgent defaultConfig s.agent actions).x
      (moveAgent defaultConfig s.agent actions).y
      defaultConfig.agent_size_w defaultConfig.agent_size_h
      s.coin.x s.coin.y 16 16
  · rw [if_pos hc]
    exact moveAgent_inv s.agent actions h
  · rw [if_neg hc]
    exact moveAgent_inv s.agent actions h

lemma stateInv_reset (seed : ℕ) : StateInv (reset defaultConfig seed).1 := by
  norm_num [StateInv, AgentInv, inFloorBand, inMidBand, inArmBand, reset, defaultConfig]

lemma reachable_inv (s : State) (hs : Reachable defaultConfig s) : StateInv s := by
  induction hs with
  | init seed => exact stateInv_reset seed
  | next s hs actions rng ih => exact stepGame_inv s actions rng ih

/-! ### Claim theorems -/

/-- C1: from every reachable state, for every action set and random
source, the agent's x position after a step lies within
[0, arena width minus agent width] = [0, 616] under the default
configuration.  In this exact-rational embedding every coordinate is a
finite rational by construction, so the finiteness part of the claim
is inherent to the model and the containment bound is the whole
content. -/
theorem c1_agent_x_bounds (s : State) (hs : Reachable defaultConfig s)
    (actions : List ℕ) (rng : Rng) :
    0 ≤ (stepGame defaultConfig s actions rng).1.agent.x ∧
    (stepGame defaultConfig s actions rng).1.agent.x ≤
      defaultConfig.W - defaultConfig.agent_size_w := by
  have h := reachable_inv _ (Reachable.next s hs actions rng)
  rw [dcW_sub]
  exact ⟨h.1, h.2.1⟩

/-- Witness for C1: the step out of the seed-0 reset state stays
inside the arena. -/
theorem c1_agent_x_bounds_witness :
    0 ≤ (stepGame defaultConfig (reset defaultConfig 0).1 [] (defaultRng 5)).1.agent.x ∧
    (stepGame defaultConfig (reset defaultConfig 0).1 [] (defaultRng 5)).1.agent.x ≤
      defaultConfig.W - defaultConfig.agent_size_w :=
  c1_agent_x_bounds (reset defaultConfig 0).1 (Reachable.init 0) [] (defaultRng 5)

/-- C2: in the horizontal collision resolution, platforms are processed
independently in table order (the loop is a left fold, so a platform
appended to the table is handled last, on the agent produced by all
earlier platforms), and each platform whose rectangle overlaps the
agent's is resolved by snapping the agent's right edge to the
platform's left edge when vx > 0, snapping the agent's left edge to the
platform's right edge otherwise, and zeroing vx; a non-overlapping
platform leaves the agent untouched. -/
theorem c2_horizontal_resolution (cfg : Config) :
    (∀ (a : Agent) (ps : List Platform) (p : Platform),
        resolveHorizList cfg a (ps ++ [p]) =
          resolveHorizOne cfg (resolveHorizList cfg a ps) p) ∧
    (∀ (a : Agent) (p : Platform),
        rectsIntersect a.x a.y cfg.agent_size_w cfg.agent_size_h p.x p.y p.w p.h →
          ((0 < a.vx → (resolveHorizOne cfg a p).x = p.x - cfg.agent_size_w) ∧
           (¬ 0 < a.vx → (resolveHorizOne cfg a p).x = p.x + p.w) ∧
           (resolveHorizOne cfg a p).vx = 0 ∧
           (resolveHorizOne cfg a p).y = a.y ∧
           (resolveHorizOne cfg a p).vy = a.vy ∧
           (resolveHorizOne cfg a p).grounded = a.grounded)) ∧
    (∀ (a : Agent) (p : Platform),
        ¬ rectsIntersect a.x a.y cfg.agent_size_w cfg.agent_size_h p.x p.y p.w p.h →
          resolveHorizOne cfg a p = a) := by
  refine ⟨fun a ps p => ?_, fun a p h => ?_, fun a p h => ?_⟩
  · unfold resolveHorizList
    rw [List.foldl_append]
    rfl
  · unfold resolveHorizOne
    rw [if_pos h]
    refine ⟨fun hv => ?_, fun hv => ?_, rfl, rfl, rfl, rfl⟩
    · simp [if_pos hv]
    · simp [if_neg hv]
  · unfold resolveHorizOne
    rw [if_neg h]

/-- Witness for C2 at a concrete input: an agent moving left that
overlaps the middle platform is snapped to the platform's right edge
with vx zeroed, and a non-overlapping platform is left untouched. -/
theorem c2_witness :
    (resolveHorizOne defaultConfig ⟨430, 250, -10, 0, false⟩ ⟨200, 240, 240, 15⟩).x = 440 ∧
    (resolveHorizOne defaultConfig ⟨430, 250, -10, 0, false⟩ ⟨200, 240, 240, 15⟩).vx = 0 ∧
    resolveHorizOne defaultConfig ⟨430, 100, -10, 0, false⟩ ⟨200, 240, 240, 15⟩ =
      ⟨430, 100, -10, 0, false⟩ := by
  refine ⟨?_, ?_, ?_⟩
  · have h := ((c2_horizontal_resolution defaultConfig).2.1
      ⟨430, 250, -10, 0, false⟩ ⟨200, 240, 240, 15⟩
      (by norm_num [rectsIntersect, defaultConfig])).2.1 (by norm_num)
    rw [h]
    norm_num
  · exact ((c2_horizontal_resolution defaultConfig).2.1
      ⟨430, 250, -10, 0, false⟩ ⟨200, 240, 240, 15⟩
      (by norm_num [rectsIntersect, defaultConfig])).2.2.1
  · exact (c2_horizontal_resolution defaultConfig).2.2
      ⟨430, 100, -10, 0, false⟩ ⟨200, 240, 240, 15⟩
      (by norm_num [rectsIntersect, defaultConfig])

/-- C3: whenever the post-movement agent rectangle overlaps the coin's
16 by 16 rectangle, the step reports pickup = true, increments the coin
count by exactly one, and sets the remaining time to the full per-coin
timer budget, regardless of the previous remaining time. -/
theorem c3_pickup_effects (cfg : Config) (st : State) (actions : List ℕ) (rng : Rng)
    (h : rectsIntersect (moveAgent cfg st.agent actions).x
        (moveAgent cfg st.agent actions).y cfg.agent_size_w cfg.agent_size_h
        st.coin.x st.coin.y 16 16) :
    (stepGame cfg st actions rng).2.1.pickup = true ∧
    (stepGame cfg st actions rng).1.coins_collected = st.coins_collected + 1 ∧
    (stepGame cfg st actions rng).1.time_left = cfg.timer_budget := by
  unfold stepGame
  rw [if_pos h]
  exact ⟨rfl, rfl, rfl⟩

/-- Witness for C3: from the seed-1 reset state (coin on the middle
floor section, overlapping the agent's start box) a single idle step
picks the coin up, bumps the count to one, and resets the timer. -/
theorem c3_pickup_effects_witness :
    (stepGame defaultConfig (reset defaultConfig 1).1 [] (reset defaultConfig 1).2).2.1.pickup
        = true ∧
    (stepGame defaultConfig (reset defaultConfig 1).1 [] (reset defaultConfig 1).2).1.coins_collected
        = (reset defaultConfig 1).1.coins_collected + 1 ∧
    (stepGame defaultConfig (reset defaultConfig 1).1 [] (reset defaultConfig 1).2).1.time_left
        = defaultConfig.timer_budget :=
  c3_pickup_effects defaultConfig (reset defaultConfig 1).1 [] (reset defaultConfig 1).2
    (by
      simp only [reset_one_eval, move_idle_eval]
      norm_num [rectsIntersect, defaultConfig])

/-- C4: on every pickup from a reachable state, the respawned coin's
spawn index differs from the spawn index of the coin just collected. -/
theorem c4_anti_repeat (cfg : Config) (s : State) (actions : List ℕ) (rng : Rng)
    (hs : Reachable cfg s)
    (hp : (stepGame cfg s actions rng).2.1.pickup = true) :
    (stepGame cfg s actions rng).1.coin.spawn_index ≠ s.coin.spawn_index := by
  have hinv := (coin_state_inv cfg s hs).1
  unfold stepGame at hp ⊢
  by_cases h : rectsIntersect (moveAgent cfg s.agent actions).x
      (moveAgent cfg s.agent actions).y cfg.agent_size_w cfg.agent_size_h
      s.coin.x s.coin.y 16 16
  · rw [if_pos h]
    have hne := sampleCoinSpawn_ne cfg rng s.last_coin_spawn_index
    simpa [coinFor, hinv] using hne
  · rw [if_neg h] at hp
    simp at hp

/-- Witness for C4: the seed-1 pickup step respawns the coin on a
platform index different from the collected coin's index. -/
theorem c4_anti_repeat_witness :
    (stepGame defaultConfig (reset defaultConfig 1).1 [] (reset defaultConfig 1).2).1.coin.spawn_index
      ≠ (reset defaultConfig 1).1.coin.spawn_index :=
  c4_anti_repeat defaultConfig (reset defaultConfig 1).1 [] (reset defaultConfig 1).2
    (Reachable.init 1)
    (by
      have h : rectsIntersect (moveAgent defaultConfig (reset defaultConfig 1).1.agent []).x
          (moveAgent defaultConfig (reset defaultConfig 1).1.agent []).y
          defaultConfig.agent_size_w defaultConfig.agent_size_h
          (reset defaultConfig 1).1.coin.x (reset defaultConfig 1).1.coin.y 16 16 := by
        simp only [reset_one_eval, move_idle_eval]
        norm_num [rectsIntersect, defaultConfig]
      unfold stepGame
      rw [if_pos h])

/-- C5: the event record carries at most one fail reason, with timeout
checked first: fail is timeout exactly when the final remaining time is
at most zero, fail is fall exactly when the remaining time is positive
and the final agent y is at or below the death line, and fail is never
both in one record. -/
theorem c5_fail_reasons (cfg : Config) (st : State) (actions : List ℕ) (rng : Rng) :
    ((stepGame cfg st actions rng).2.1.fail = some FailReason.timeout ↔
      (stepGame cfg st actions rng).1.time_left ≤ 0) ∧
    ((stepGame cfg st actions rng).2.1.fail = some FailReason.fall ↔
      (¬ (stepGame cfg st actions rng).1.time_left ≤ 0 ∧
        (stepGame cfg st actions rng).1.agent.y ≥ cfg.death_y)) ∧
    ¬ ((stepGame cfg st actions rng).2.1.fail = some FailReason.timeout ∧
       (stepGame cfg st actions rng).2.1.fail = some FailReason.fall) := by
  unfold stepGame
  by_cases h : rectsIntersect (moveAgent cfg st.agent actions).x
      (moveAgent cfg st.agent actions).y cfg.agent_size_w cfg.agent_size_h
      st.coin.x st.coin.y 16 16
  · rw [if_pos h]
    unfold failFor
    split_ifs <;> simp_all
  · rw [if_neg h]
    unfold failFor
    split_ifs <;> simp_all

/-- C6: the win flag is set exactly when the post-step coin count has
reached the configured threshold, and the coin count never decreases
across a step. -/
theorem c6_win_iff_threshold (cfg : Config) (st : State) (actions : List ℕ) (rng : Rng) :
    ((stepGame cfg st actions rng).2.1.win = true ↔
      cfg.coins_to_win ≤ (stepGame cfg st actions rng).1.coins_collected) ∧
    st.coins_collected ≤ (stepGame cfg st actions rng).1.coins_collected := by
  unfold stepGame
  by_cases h : rectsIntersect (moveAgent cfg st.agent actions).x
      (moveAgent cfg st.agent actions).y cfg.agent_size_w cfg.agent_size_h
      st.coin.x st.coin.y 16 16
  · rw [if_pos h]
    exact ⟨by simp [ge_iff_le], Nat.le_succ _⟩
  · rw [if_neg h]
    exact ⟨by simp [ge_iff_le], le_refl _⟩

/-- C7: with the default configuration and any seed, reset places the
agent at (308, 288) with zero velocity and grounded, zero coins, and a
full timer; the initial coin's platform index is drawn from all six
platform indices (no anti-repeat: the draw is taken modulo six, and
every index is attained for some seed), and the coin is horizontally
centred on that platform, 20 pixels above its top. -/
theorem c7_reset_spec (seed : ℕ) :
    (reset defaultConfig seed).1.agent = ⟨308, 288, 0, 0, true⟩ ∧
    (reset defaultConfig seed).1.coins_collected = 0 ∧
    (reset defaultConfig seed).1.time_left = defaultConfig.timer_budget ∧
    (reset defaultConfig seed).1.coin.spawn_index = seed % 6 ∧
    (reset defaultConfig seed).1.last_coin_spawn_index = seed % 6 ∧
    ((reset defaultConfig seed).1.coin.x =
      ((platformTops defaultConfig).getD (seed % 6) ⟨0, 0, 0, 0⟩).x +
        ((⌊(((platformTops defaultConfig).getD (seed % 6) ⟨0, 0, 0, 0⟩).w / 2)⌋ : ℤ) : ℚ)
        - 8) ∧
    ((reset defaultConfig seed).1.coin.y =
      ((platformTops defaultConfig).getD (seed % 6) ⟨0, 0, 0, 0⟩).y - 20) ∧
    (∀ i, i < 6 → ∃ sd, (reset defaultConfig sd).1.coin.spawn_index = i) := by
  refine ⟨by norm_num [reset, defaultConfig], rfl, rfl, rfl, rfl, rfl, rfl,
    fun i hi => ⟨i, ?_⟩⟩
  show i % 6 = i
  exact Nat.mod_eq_of_lt hi

/-- Witness for C7: the surjectivity component applied at index 4. -/
theorem c7_reset_spec_witness :
    ∃ sd, (reset defaultConfig sd).1.coin.spawn_index = 4 :=
  (c7_reset_spec 0).2.2.2.2.2.2.2 4 (by norm_num)

/-- C8: determinism.  A full episode is a pure function of the
configuration, the seed and the action sequence: two runs with equal
seeds and equal action sequences produce identical trajectories of
states and event records.  In this embedding the step function is pure
by construction, mirroring the source's discipline of building a fresh
state object instead of mutating its input. -/
theorem c8_determinism (cfg : Config) (seed1 seed2 : ℕ)
    (as1 as2 : List (List ℕ)) (h1 : seed1 = seed2) (h2 : as1 = as2) :
    runEpisode cfg seed1 as1 = runEpisode cfg seed2 as2 := by
  subst h1
  subst h2
  rfl

/-- Witness for C8: two three-step episodes with seed 0 and the same
action sequence coincide. -/
theorem c8_determinism_witness :
    runEpisode defaultConfig 0 [[RIGHT], [RIGHT, JUMP], []] =
      runEpisode defaultConfig 0 [[RIGHT], [RIGHT, JUMP], []] :=
  c8_determinism defaultConfig 0 0 [[RIGHT], [RIGHT, JUMP], []]
    [[RIGHT], [RIGHT, JUMP], []] rfl rfl

/-- C9: in every reachable state the coin's spawn index equals the
state's last spawn index, is a valid index into the six-entry platform
table, and the coin sits at the canonical spot for that index
(horizontally centred, 20 pixels above the platform top, as computed by
coinFor). -/
theorem c9_coin_inv (cfg : Config) (s : State) (hs : Reachable cfg s) :
    s.coin.spawn_index = s.last_coin_spawn_index ∧
    s.coin.spawn_index < (platformTops cfg).length ∧
    s.coin = coinFor cfg s.coin.spawn_index := by
  have h := coin_state_inv cfg s hs
  exact h

/-- Witness for C9: the invariant at the seed-0 reset state. -/
theorem c9_coin_inv_witness :
    (reset defaultConfig 0).1.coin.spawn_index
        = (reset defaultConfig 0).1.last_coin_spawn_index ∧
    (reset defaultConfig 0).1.coin.spawn_index < (platformTops defaultConfig).length ∧
    (reset defaultConfig 0).1.coin
        = coinFor defaultConfig (reset defaultConfig 0).1.coin.spawn_index :=
  c9_coin_inv defaultConfig (reset defaultConfig 0).1 (Reachable.init 0)

/-- C10: a step without pickup leaves the coin (position and spawn
index), the last spawn index and the coin count unchanged, and the
remaining time is exactly the previous remaining time minus one
timestep. -/
theorem c10_no_pickup_frame (cfg : Config) (st : State) (actions : List ℕ) (rng : Rng)
    (h : (stepGame cfg st actions rng).2.1.pickup = false) :
    (stepGame cfg st actions rng).1.coin = st.coin ∧
    (stepGame cfg st actions rng).1.last_coin_spawn_index = st.last_coin_spawn_index ∧
    (stepGame cfg st actions rng).1.coins_collected = st.coins_collected ∧
    (stepGame cfg st actions rng).1.time_left = st.time_left - cfg.dt := by
  unfold stepGame at h ⊢
  by_cases hc : rectsIntersect (moveAgent cfg st.agent actions).x
      (moveAgent cfg st.agent actions).y cfg.agent_size_w cfg.agent_size_h
      st.coin.x st.coin.y 16 16
  · rw [if_pos hc] at h
    simp at h
  · rw [if_neg hc]
    exact ⟨rfl, rfl, rfl, rfl⟩

/-- Witness for C10: the seed-0 idle step has no pickup (the coin is on
the left floor section, away from the agent) and changes nothing but
the agent and the timer. -/
theorem c10_no_pickup_frame_witness :
    (stepGame defaultConfig (reset defaultConfig 0).1 [] (reset defaultConfig 0).2).1.coin
        = (reset defaultConfig 0).1.coin ∧
    (stepGame defaultConfig (reset defaultConfig 0).1 [] (reset defaultConfig 0).2).1.last_coin_spawn_index
        = (reset defaultConfig 0).1.last_coin_spawn_index ∧
    (stepGame defaultConfig (reset defaultConfig 0).1 [] (reset defaultConfig 0).2).1.coins_collected
        = (reset defaultConfig 0).1.coins_collected ∧
    (stepGame defaultConfig (reset defaultConfig 0).1 [] (reset defaultConfig 0).2).1.time_left
        = (reset defaultConfig 0).1.time_left - defaultConfig.dt :=
  c10_no_pickup_frame defaultConfig (reset defaultConfig 0).1 [] (reset defaultConfig 0).2
    (by
      have h : ¬ rectsIntersect (moveAgent defaultConfig (reset defaultConfig 0).1.agent []).x
          (moveAgent defaultConfig (reset defaultConfig 0).1.agent []).y
          defaultConfig.agent_size_w defaultConfig.agent_size_h
          (reset defaultConfig 0).1.coin.x (reset defaultConfig 0).1.coin.y 16 16 := by
        simp only [reset_zero_eval, move_idle_eval]
        norm_num [rectsIntersect, defaultConfig]
      unfold stepGame
      rw [if_neg h])

end CoinGame
